import Mathlib

/-!
Verification development for the bank-news-viewer hybrid retrieval and
learned-reranking engine.  The Python sources are shallowly embedded:
pure functions become Lean functions over `String`, `List` and `ℚ`;
external collaborators (embedding provider, morphology provider, NER
extractor, date parser, square root from numpy, keyword configuration)
are passed in as explicit parameters; fallible code returns `Except`.
-/

namespace BankNews

/-! ## String primitives (Python and SQLite semantics) -/

/-- Lowercase one character the way Python `str.lower` does on the
alphabets this corpus uses: ASCII letters and the Russian Cyrillic block
(А..Я at U+0410..U+042F maps to а..я, Ё U+0401 maps to ё U+0451). -/
def pyLowerChar (c : Char) : Char :=
  if 'A' ≤ c ∧ c ≤ 'Z' then Char.ofNat (c.toNat + 32)
  else if 0x410 ≤ c.toNat ∧ c.toNat ≤ 0x42F then Char.ofNat (c.toNat + 0x20)
  else if c.toNat = 0x401 then Char.ofNat 0x451
  else c

/-- Uppercase one character (inverse direction of `pyLowerChar`). -/
def pyUpperChar (c : Char) : Char :=
  if 'a' ≤ c ∧ c ≤ 'z' then Char.ofNat (c.toNat - 32)
  else if 0x430 ≤ c.toNat ∧ c.toNat ≤ 0x44F then Char.ofNat (c.toNat - 0x20)
  else if c.toNat = 0x451 then Char.ofNat 0x401
  else c

/-- Python `str.lower`. -/
def pyLower (s : String) : String := String.mk (s.data.map pyLowerChar)

/-- Python `str.upper`. -/
def pyUpper (s : String) : String := String.mk (s.data.map pyUpperChar)

/-- Python `str.capitalize`: first character uppercased, rest lowercased. -/
def pyCapitalize (s : String) : String :=
  match s.data with
  | [] => s
  | c :: rest => String.mk (pyUpperChar c :: rest.map pyLowerChar)

/-- Does `needle` occur as a contiguous sublist of `hay`? -/
def substrOccurs (needle : List Char) : List Char → Bool
  | [] => needle.isEmpty
  | c :: rest => needle.isPrefixOf (c :: rest) || substrOccurs needle rest

/-- Python substring containment `needle in hay`. -/
def pyIn (needle hay : String) : Bool := substrOccurs needle.data hay.data

/-- A regex word character under `re.UNICODE` restricted to the alphabets
in use: ASCII alphanumerics, underscore, and the Cyrillic block. -/
def isWordChar (c : Char) : Bool :=
  c.isAlphanum || c = '_' || (0x400 ≤ c.toNat && c.toNat ≤ 0x4FF)

/-- A word boundary is fine next to the start or end of the text or next
to a non-word character. -/
def boundaryOk : Option Char → Bool
  | none => true
  | some c => !isWordChar c

/-- Is the character right after the first `n` characters of `hay` a
valid boundary? -/
def afterOk (n : Nat) (hay : List Char) : Bool :=
  match hay.drop n with
  | [] => true
  | c :: _ => !isWordChar c

/-- Does `needle` occur in `hay` with word boundaries on both sides
(`prev` is the character just before the current position)? -/
def wordOccursAux (needle : List Char) (prev : Option Char) : List Char → Bool
  | [] => false
  | c :: rest =>
      (boundaryOk prev && needle.isPrefixOf (c :: rest) && afterOk needle.length (c :: rest))
        || wordOccursAux needle (some c) rest

/-- `word_in_text` from `news_collector_service.py`: whole-word match via
`re.search(r'\b' + re.escape(word.lower()) + r'\b', text.lower())`. -/
def word_in_text (w text : String) : Bool :=
  wordOccursAux (pyLower w).data none (pyLower text).data

/-- SQLite `LIKE` folds ASCII case only. -/
def sqlFoldChar (c : Char) : Char :=
  if 'A' ≤ c ∧ c ≤ 'Z' then Char.ofNat (c.toNat + 32) else c

/-- SQLite `x LIKE '%needle%'`: substring match, ASCII-case-insensitive. -/
def likeContains (needle hay : String) : Bool :=
  substrOccurs (needle.data.map sqlFoldChar) (hay.data.map sqlFoldChar)

/-- SQLite `LOWER()`: ASCII-only lowercasing. -/
def sqlLower (s : String) : String := String.mk (s.data.map sqlFoldChar)

/-- Worker for `pySplitWS`: `cur` is the reversed current token. -/
def splitWSGo (cur : List Char) : List Char → List String
  | [] => if cur = [] then [] else [String.mk cur.reverse]
  | c :: rest =>
    if c.isWhitespace then
      if cur = [] then splitWSGo [] rest
      else String.mk cur.reverse :: splitWSGo [] rest
    else splitWSGo (c :: cur) rest

/-- Python `str.split()` with no argument: split on whitespace runs and
drop empty pieces. -/
def pySplitWS (s : String) : List String := splitWSGo [] s.data

/-- Append an element unless already present (insertion-ordered set). -/
def addNew {α : Type} [DecidableEq α] (l : List α) (x : α) : List α :=
  if x ∈ l then l else l ++ [x]

/-- Deduplicate keeping the first occurrence of each element. -/
def dedupKeep {α : Type} [DecidableEq α] (l : List α) : List α :=
  l.foldl addNew []

/-! ## Stable descending sort (Python `sorted(..., reverse=True)`) -/

/-- Insert `x` into a descending-sorted list, after all elements whose
key is strictly greater, before the first whose key is less or equal:
this reproduces the stability of Python's sort with `reverse=True`. -/
def insertDescBy {α : Type} (key : α → ℚ) (x : α) : List α → List α
  | [] => [x]
  | y :: ys => if key x < key y then y :: insertDescBy key x ys else x :: y :: ys

/-- Stable sort by `key`, largest first. -/
def sortDescBy {α : Type} (key : α → ℚ) (l : List α) : List α :=
  l.foldr (insertDescBy key) []

/-- The output of a descending sort is pairwise ordered: any later
element's key is at most any earlier element's key. -/
def SortedDesc {α : Type} (key : α → ℚ) (l : List α) : Prop :=
  l.Pairwise (fun a b => key b ≤ key a)

/-! ## Data model and external collaborators -/

/-- The `bank_keywords` configuration loaded from `news_sources.json`. -/
structure BankKeywords where
  critical : List String
  high : List String
  exclude : List String
deriving Repr, DecidableEq

/-- A row of the `news` table.  `embedding` is the stored blob decoded to
a vector; `none` models a NULL blob.  `entities` carries the
`normalized_text` column of the owned `entities` rows, in position order;
the empty string models a NULL value. -/
structure NewsRow where
  id : Nat
  title : String
  description : String
  link : String
  source : String
  published : String
  embedding : Option (List ℚ)
  fullText : String
  entities : List String
deriving Repr, DecidableEq

/-- The news dict consumed by `calculate_features`: the keys the feature
code reads from a search result. -/
structure NewsDict where
  id : Nat
  title : String
  description : String
  link : String
  source : String
  published : String
  similarity : ℚ
deriving Repr, DecidableEq, Inhabited

/-- External collaborators, passed to the embedded code as functions:
the morphology provider (pymorphy2), the NER extractor, the embedding
provider, the datetime parser (RFC 2822 or ISO, `none` on failure,
epoch seconds), numpy's square root, and the keyword configuration. -/
structure Ext where
  morphLexeme : String → List String
  normalForm : String → String
  nerQuery : String → List String
  embed : String → Option (List ℚ)
  parseDate : String → Option Int
  sqrtQ : ℚ → ℚ
  bank : BankKeywords

/-- The fixed 9-element feature vector, one field per named feature, in
the order the source assigns them. -/
structure Features where
  embedding_score : ℚ
  bm25_score : ℚ
  ner_overlap : ℚ
  morpho_match : ℚ
  title_match : ℚ
  exact_match : ℚ
  days_ago : ℚ
  source_authority : ℚ
  text_length : ℚ
deriving Repr, DecidableEq

/-! ## Feature extraction, offline copy
(`LTRDatasetGenerator.calculate_features` in `ltr_dataset_generator.py`) -/

namespace Gen

/-- `_calculate_bm25_approx`: fraction of distinct lowercased query words
occurring as substrings of lowercased title+description. -/
def calculate_bm25_approx (query : String) (news : NewsDict) : ℚ :=
  let query_words := dedupKeep (pySplitWS (pyLower query))
  let text := pyLower (news.title ++ " " ++ news.description)
  let matched := (query_words.filter (fun w => pyIn w text)).length
  if query_words = [] then 0 else (matched : ℚ) / (query_words.length : ℚ)

/-- `_calculate_ner_overlap`: Jaccard similarity of the query's and the
document's sets of lowercased normalized entity lemmas. -/
def calculate_ner_overlap (nerQuery : String → List String) (query : String)
    (stored : List String) : ℚ :=
  let query_ner_set := dedupKeep (((nerQuery query)).map pyLower)
  if query_ner_set = [] then 0
  else
    let news_ner_set := dedupKeep ((stored.filter (fun r => r ≠ "")).map pyLower)
    if news_ner_set = [] then 0
    else
      let inter := query_ner_set.filter (fun x => x ∈ news_ner_set)
      let uni := dedupKeep (query_ner_set ++ news_ner_set)
      if uni = [] then 0 else (inter.length : ℚ) / (uni.length : ℚ)

/-- `_calculate_morpho_match`: fraction of query words (with repetition)
whose normal form or surface form occurs in title+description. -/
def calculate_morpho_match (normalForm : String → String) (query : String)
    (news : NewsDict) : ℚ :=
  let query_words := pySplitWS (pyLower query)
  let text := pyLower (news.title ++ " " ++ news.description)
  let matched := (query_words.filter (fun w => pyIn (normalForm w) text || pyIn w text)).length
  if query_words = [] then 0 else (matched : ℚ) / (query_words.length : ℚ)

/-- `_calculate_title_match`: Jaccard-numerator fraction of distinct
query words present among title words. -/
def calculate_title_match (query : String) (title : String) : ℚ :=
  let query_words := dedupKeep (pySplitWS (pyLower query))
  let title_words := dedupKeep (pySplitWS (pyLower title))
  if query_words = [] then 0
  else ((query_words.filter (fun w => w ∈ title_words)).length : ℚ) / (query_words.length : ℚ)

/-- `_calculate_days_ago`: age in whole days, clamped below at 0, with
999 for an empty or unparsable date. -/
def calculate_days_ago (parseDate : String → Option Int) (now : Int)
    (published : String) : ℚ :=
  if published = "" then 999
  else
    match parseDate published with
    | none => 999
    | some pub => ((max 0 ((now - pub).fdiv 86400) : Int) : ℚ)

/-- `_get_source_authority`: 1.0 for the high-authority allowlist, 0.5
for the medium list, 0.0 otherwise (case-insensitive substring test). -/
def get_source_authority (source : String) : ℚ :=
  let high_authority := ["РБК", "Коммерсантъ", "Ведомости", "Интерфакс", "ТАСС"]
  let medium_authority := ["Известия", "Российская газета", "Banki.ru"]
  if high_authority.any (fun a => pyIn (pyLower a) (pyLower source)) then 1
  else if medium_authority.any (fun a => pyIn (pyLower a) (pyLower source)) then 1/2
  else 0

/-- `LTRDatasetGenerator.calculate_features`: the 9 features in source
order.  `stored` is the document's entity list fetched from the DB and
`now` the current time. -/
def calculate_features (ext : Ext) (now : Int) (query : String) (news : NewsDict)
    (stored : List String) : Features :=
  { embedding_score := news.similarity
    bm25_score := calculate_bm25_approx query news
    ner_overlap := calculate_ner_overlap ext.nerQuery query stored
    morpho_match := calculate_morpho_match ext.normalForm query news
    title_match := calculate_title_match query news.title
    exact_match := if pyIn (pyLower query) (pyLower news.title) then 1 else 0
    days_ago := calculate_days_ago ext.parseDate now news.published
    source_authority := get_source_authority news.source
    text_length := ((news.title.length + news.description.length : Nat) : ℚ) }

end Gen

/-! ## Feature extraction, online copy
(`LTRNewsRAGSystem.calculate_features` in `integrate_ltr_model.py`) -/

namespace Sys

/-- `_calculate_bm25_approx` (online copy). -/
def calculate_bm25_approx (query : String) (news : NewsDict) : ℚ :=
  let query_words := dedupKeep (pySplitWS (pyLower query))
  let text := pyLower (news.title ++ " " ++ news.description)
  let matched := (query_words.filter (fun w => pyIn w text)).length
  if query_words = [] then 0 else (matched : ℚ) / (query_words.length : ℚ)

/-- `_calculate_ner_overlap` (online copy). -/
def calculate_ner_overlap (nerQuery : String → List String) (query : String)
    (stored : List String) : ℚ :=
  let query_ner_set := dedupKeep (((nerQuery query)).map pyLower)
  if query_ner_set = [] then 0
  else
    let news_ner_set := dedupKeep ((stored.filter (fun r => r ≠ "")).map pyLower)
    if news_ner_set = [] then 0
    else
      let inter := query_ner_set.filter (fun x => x ∈ news_ner_set)
      let uni := dedupKeep (query_ner_set ++ news_ner_set)
      if uni = [] then 0 else (inter.length : ℚ) / (uni.length : ℚ)

/-- `_calculate_morpho_match` (online copy). -/
def calculate_morpho_match (normalForm : String → String) (query : String)
    (news : NewsDict) : ℚ :=
  let query_words := pySplitWS (pyLower query)
  let text := pyLower (news.title ++ " " ++ news.description)
  let matched := (query_words.filter (fun w => pyIn (normalForm w) text || pyIn w text)).length
  if query_words = [] then 0 else (matched : ℚ) / (query_words.length : ℚ)

/-- `_calculate_title_match` (online copy). -/
def calculate_title_match (query : String) (title : String) : ℚ :=
  let query_words := dedupKeep (pySplitWS (pyLower query))
  let title_words := dedupKeep (pySplitWS (pyLower title))
  if query_words = [] then 0
  else ((query_words.filter (fun w => w ∈ title_words)).length : ℚ) / (query_words.length : ℚ)

/-- `_calculate_days_ago` (online copy). -/
def calculate_days_ago (parseDate : String → Option Int) (now : Int)
    (published : String) : ℚ :=
  if published = "" then 999
  else
    match parseDate published with
    | none => 999
    | some pub => ((max 0 ((now - pub).fdiv 86400) : Int) : ℚ)

/-- `_get_source_authority` (online copy). -/
def get_source_authority (source : String) : ℚ :=
  let high_authority := ["РБК", "Коммерсантъ", "Ведомости", "Интерфакс", "ТАСС"]
  let medium_authority := ["Известия", "Российская газета", "Banki.ru"]
  if high_authority.any (fun a => pyIn (pyLower a) (pyLower source)) then 1
  else if medium_authority.any (fun a => pyIn (pyLower a) (pyLower source)) then 1/2
  else 0

/-- `LTRNewsRAGSystem.calculate_features` (online copy). -/
def calculate_features (ext : Ext) (now : Int) (query : String) (news : NewsDict)
    (stored : List String) : Features :=
  { embedding_score := news.similarity
    bm25_score := calculate_bm25_approx query news
    ner_overlap := calculate_ner_overlap ext.nerQuery query stored
    morpho_match := calculate_morpho_match ext.normalForm query news
    title_match := calculate_title_match query news.title
    exact_match := if pyIn (pyLower query) (pyLower news.title) then 1 else 0
    days_ago := calculate_days_ago ext.parseDate now news.published
    source_authority := get_source_authority news.source
    text_length := ((news.title.length + news.description.length : Nat) : ℚ) }

end Sys

/-! ## Recency decay (`calculate_recency_boost` in `news_collector_service.py`) -/

/-- The age-bucket multiplier as a function of age in hours. -/
def boostOfAge (age_hours : ℚ) : ℚ :=
  if age_hours < 24 then 13/10
  else if age_hours < 72 then 6/5
  else if age_hours < 168 then 11/10
  else if age_hours < 720 then 21/20
  else 1

/-- `calculate_recency_boost`: parse the published date (RFC 2822 with an
ISO fallback, modelled by `parseDate`), compute the age in hours, and
pick the bucket multiplier; any empty or unparsable date gives 1.0. -/
def calculate_recency_boost (parseDate : String → Option Int) (now : Int)
    (published_date : String) : ℚ :=
  if published_date = "" then 1
  else
    match parseDate published_date with
    | none => 1
    | some pub =>
      let age_hours : ℚ := ((now - pub : Int) : ℚ) / 3600
      if age_hours < 24 then 13/10
      else if age_hours < 72 then 6/5
      else if age_hours < 168 then 11/10
      else if age_hours < 720 then 21/20
      else 1

/-! ## Banking relevance (`calculate_banking_relevance`) -/

/-- The dict returned by `calculate_banking_relevance`. -/
structure BankScore where
  critical_matches : Nat
  high_matches : Nat
  exclude_matches : Nat
  boost : ℚ
deriving Repr, DecidableEq

/-- `calculate_banking_relevance`: counts keyword hits for statistics but
always sets `boost` to 1.0 (prioritization is disabled in the source). -/
def calculate_banking_relevance (keywords : BankKeywords) (title description : String) :
    BankScore :=
  let text := pyLower (title ++ " " ++ description)
  { critical_matches := (keywords.critical.filter (fun k => pyIn (pyLower k) text)).length
    high_matches := (keywords.high.filter (fun k => pyIn (pyLower k) text)).length
    exclude_matches := (keywords.exclude.filter (fun k => pyIn (pyLower k) text)).length
    boost := 1 }

/-! ## Query expansion (`expand_query`) -/

/-- The `phrase_synonyms` table, in source order. -/
def phrase_synonyms : List (String × List String) :=
  [("ставка цб", ["ключевая ставка", "ставка цб", "ставка центробанка", "ставка банка россии"]),
   ("ключевая ставка", ["ключевая ставка", "ставка цб", "ставка центробанка"]),
   ("курс рубля", ["курс рубля", "курс доллара", "рубль доллар", "валютный курс"]),
   ("курс доллара", ["курс доллара", "курс рубля", "доллар рубль", "валютный курс"])]

/-- The per-word `synonyms` table, in source order. -/
def word_synonyms : List (String × List String) :=
  [("лукойл", ["лукойл", "lukoil"]),
   ("роснефть", ["роснефть", "rosneft"]),
   ("газпром", ["газпром", "gazprom"]),
   ("сбербанк", ["сбербанк", "sberbank", "сбер"]),
   ("втб", ["втб", "vtb"]),
   ("санкции", ["санкции", "ограничения"]),
   ("цб", ["цб", "центробанк", "банк россии"]),
   ("рубль", ["рубль", "рубля", "руб"]),
   ("доллар", ["доллар", "usd"]),
   ("евро", ["евро", "eur"])]

/-- `expand_query`: if a known phrase occurs in the lowered query, return
its variants (short-circuit); otherwise expand each word through the
per-word synonym table.  The Python `set` is modelled as an
insertion-ordered duplicate-free list. -/
def expand_query (query : String) : List String :=
  let query_lower := pyLower query
  match phrase_synonyms.find? (fun p => pyIn p.1 query_lower) with
  | some p => p.2
  | none =>
    let words := pySplitWS (pyLower query)
    let expanded := dedupKeep words
    words.foldl (fun acc word =>
      word_synonyms.foldl (fun acc2 kv =>
        if word = kv.1 ∨ pyIn kv.1 word then kv.2.foldl addNew acc2 else acc2) acc) expanded

/-- The `stop_words` set of `hybrid_search_internal`. -/
def stop_words : List String :=
  ["про", "о", "об", "в", "на", "с", "по", "для", "к", "у", "из", "от", "и",
   "или", "а", "но", "за", "перед", "между", "под", "над",
   "покажи", "найди", "дай", "ищи", "смотри"]

/-- `get_word_forms`: the word's own lowercase form plus every lowercased
surface form of the morphology provider's lexeme. -/
def get_word_forms (morphLexeme : String → List String) (word : String) : List String :=
  dedupKeep (pyLower word :: (morphLexeme word).map pyLower)

/-! ## Hybrid search (`hybrid_search_internal`) -/

/-- `for x in xs` accumulating a result, with exception propagation:
the loop stops at the first raising iteration. -/
def foldE {α β : Type} (f : β → α → Except Unit β) (b : β) : List α → Except Unit β
  | [] => Except.ok b
  | x :: xs =>
    match f b x with
    | Except.error e => Except.error e
    | Except.ok b1 => foldE f b1 xs

/-- `[f x for x in xs]` with exception propagation. -/
def mapE {α β : Type} (f : α → Except Unit β) : List α → Except Unit (List β)
  | [] => Except.ok []
  | x :: xs =>
    match f x with
    | Except.error e => Except.error e
    | Except.ok y =>
      match mapE f xs with
      | Except.error e => Except.error e
      | Except.ok ys => Except.ok (y :: ys)

/-- One value of the `keyword_results` dict: the fields stored when a
document first matches a keyword, plus the accumulating score. -/
structure KEntry where
  id : Nat
  title : String
  description : String
  link : String
  source : String
  published : String
  embedding : List ℚ
  keyword_score : ℚ
deriving Repr, DecidableEq

/-- One value of the `combined_results` dict after the fusion pass (the
candidate returned by the hybrid search). -/
structure Candidate where
  id : Nat
  title : String
  description : String
  link : String
  source : String
  published : String
  keyword_score : ℚ
  vector_score : ℚ
  bank_boost : ℚ
  critical_keywords : Nat
  is_excluded : Bool
  similarity : ℚ
  recency_boost : ℚ
  geo_boost : ℚ
  war_penalty : ℚ
deriving Repr, DecidableEq, Inhabited

/-- The SQL `LIKE` prefilter: some form, in lowercase, capitalized or
uppercase shape, occurs as a substring of title, description or text. -/
def rowLikeMatch (forms : List String) (row : NewsRow) : Bool :=
  forms.any (fun f => ([pyLower f, pyCapitalize f, pyUpper f]).any (fun v =>
    likeContains v row.title || likeContains v row.description || likeContains v row.fullText))

/-- Is a document id already a key of `keyword_results`? -/
def containsId (kr : List KEntry) (i : Nat) : Bool := kr.any (fun e => e.id = i)

/-- Add `w` to the accumulated score of the entry with id `i`. -/
def addScoreTo (kr : List KEntry) (i : Nat) (w : ℚ) : List KEntry :=
  kr.map (fun e => if e.id = i then { e with keyword_score := e.keyword_score + w } else e)

/-- Body of the per-keyword row loop: skip rows the SQL prefilter would
not fetch, skip rows where no morphological form is a whole word, create
the entry on first contact (decoding the embedding blob, which raises on
NULL), and accumulate the positional weight with the NER multiplier. -/
def positionWeight (keyword : String) (qNer : List String)
    (found_title found_desc found_text : Bool) : ℚ :=
  let is_phrase := pyIn " " keyword
  let title_weight : ℚ := if is_phrase then 10 else 5
  let desc_weight : ℚ := if is_phrase then 3 else 3/2
  let text_weight : ℚ := if is_phrase then 2 else 1
  let ner_multiplier : ℚ := if pyLower keyword ∈ qNer then 5 else 1
  (if found_title then title_weight * ner_multiplier else 0)
    + (if found_desc then desc_weight * ner_multiplier else 0)
    + (if found_text then text_weight * ner_multiplier else 0)

/-- First contact of a document with the keyword loop: keep the dict as
is when the id is already present, otherwise decode the stored embedding
blob (raising on NULL, like `np.frombuffer(None)`) and append a fresh
entry with score 0. -/
def newEntryStep (kr : List KEntry) (row : NewsRow) : Except Unit (List KEntry) :=
  if containsId kr row.id then Except.ok kr
  else
    match row.embedding with
    | none => Except.error ()
    | some emb =>
        Except.ok (kr ++ [{ id := row.id, title := row.title,
                            description := row.description, link := row.link,
                            source := row.source, published := row.published,
                            embedding := emb, keyword_score := 0 }])

def processRow (keyword : String) (forms : List String) (qNer : List String)
    (kr : List KEntry) (row : NewsRow) : Except Unit (List KEntry) :=
  if ¬ rowLikeMatch forms row then Except.ok kr
  else
    if ¬ (forms.any (fun f => word_in_text f row.title)
        || forms.any (fun f => word_in_text f row.description)
        || forms.any (fun f => word_in_text f row.fullText)) then Except.ok kr
    else
      match newEntryStep kr row with
      | Except.error e => Except.error e
      | Except.ok kr1 =>
          Except.ok (addScoreTo kr1 row.id
            (positionWeight keyword qNer
              (forms.any (fun f => word_in_text f row.title))
              (forms.any (fun f => word_in_text f row.description))
              (forms.any (fun f => word_in_text f row.fullText))))

/-- The outer keyword loop body. -/
def processKeyword (morphLexeme : String → List String) (corpus : List NewsRow)
    (qNer : List String) (kr : List KEntry) (keyword : String) :
    Except Unit (List KEntry) :=
  foldE (processRow keyword (get_word_forms morphLexeme keyword) qNer) kr corpus

/-- The whole keyword-scoring loop building `keyword_results`. -/
def lexicalStage (morphLexeme : String → List String) (corpus : List NewsRow)
    (qNer : List String) (keywords : List String) : Except Unit (List KEntry) :=
  foldE (processKeyword morphLexeme corpus qNer) [] keywords

/-- The multi-match title boost: a title matching at least two distinct
keywords multiplies the score by `1 + (count - 1) * 0.3`. -/
def multiMatchBoost (morphLexeme : String → List String) (keywords : List String)
    (kr : List KEntry) : List KEntry :=
  kr.map (fun e =>
    let matched_in_title :=
      (keywords.filter (fun kw =>
        (get_word_forms morphLexeme kw).any (fun f => word_in_text f e.title))).length
    if 2 ≤ matched_in_title then
      { e with keyword_score :=
          e.keyword_score * (1 + ((matched_in_title : ℚ) - 1) * (3/10)) }
    else e)

/-- The stored entities of document `i` (the rows of `entities` with
that `news_id`). -/
def entitiesOf (corpus : List NewsRow) (i : Nat) : List String :=
  match corpus.find? (fun r => r.id = i) with
  | some r => r.entities
  | none => []

/-- The stored-entity boost: each distinct stored `normalized_text` whose
SQL `LOWER` form is one of the query's normalized entities multiplies the
score by an extra 0.4. -/
def nerDbBoost (qNer : List String) (corpus : List NewsRow) (kr : List KEntry) :
    List KEntry :=
  if qNer = [] then kr
  else
    kr.map (fun e =>
      let ner_matches :=
        (dedupKeep ((entitiesOf corpus e.id).filter (fun s => sqlLower s ∈ qNer))).length
      if 0 < ner_matches then
        { e with keyword_score := e.keyword_score * (1 + (ner_matches : ℚ) * (2/5)) }
      else e)

/-- `np.frombuffer` on the stored blob: raises on a NULL blob. -/
def frombuffer : Option (List ℚ) → Except Unit (List ℚ)
  | none => Except.error ()
  | some v => pure v

/-- `np.dot` on 1-D arrays: raises when the dimensions differ. -/
def npDot (q d : List ℚ) : Except Unit ℚ :=
  if q.length = d.length then pure ((List.zipWith (fun a b => a * b) q d).sum)
  else Except.error ()

/-- `np.linalg.norm`, with the square root supplied by `sqrtQ`. -/
def normQ (sqrtQ : ℚ → ℚ) (v : List ℚ) : ℚ := sqrtQ ((v.map (fun x => x * x)).sum)

/-- Cosine similarity as the source computes it:
`np.dot(q, d) / (np.linalg.norm(q) * np.linalg.norm(d))`. -/
def cosineSim (sqrtQ : ℚ → ℚ) (q d : List ℚ) : Except Unit ℚ := do
  let dp ← npDot q d
  pure (dp / (normQ sqrtQ q * normQ sqrtQ d))

/-- The vector-search pass: when the query embeds, score every corpus row
by cosine similarity (decoding every stored blob). -/
def vectorStage (ext : Ext) (corpus : List NewsRow) (query : String) :
    Except Unit (List (Nat × ℚ)) :=
  match ext.embed query with
  | none => Except.ok []
  | some qe =>
      mapE (fun row => do
        let emb ← frombuffer row.embedding
        let sim ← cosineSim ext.sqrtQ qe emb
        pure (row.id, sim)) corpus

/-- `vector_results.get(news_id, {}).get('vector_score', 0)`. -/
def vecScore (vr : List (Nat × ℚ)) (i : Nat) : ℚ :=
  match vr.find? (fun p => p.1 = i) with
  | some p => p.2
  | none => 0

/-- `max([... keyword_score ...]) if keyword_results else 1`. -/
def maxKeywordScore (kr : List KEntry) : ℚ :=
  match kr.map (fun e => e.keyword_score) with
  | [] => 1
  | s :: rest => rest.foldl max s

/-- Build one `combined_results` value: normalized keyword score, vector
score looked up with default 0, and the banking-relevance fields. -/
def mkCombined (bank : BankKeywords) (mx : ℚ) (vr : List (Nat × ℚ)) (e : KEntry) :
    Candidate :=
  let bank_relevance := calculate_banking_relevance bank e.title e.description
  { id := e.id, title := e.title, description := e.description, link := e.link,
    source := e.source, published := e.published,
    keyword_score := if 0 < mx then e.keyword_score / mx else 0,
    vector_score := vecScore vr e.id,
    bank_boost := bank_relevance.boost,
    critical_keywords := bank_relevance.critical_matches,
    is_excluded := 0 < bank_relevance.exclude_matches,
    similarity := 0, recency_boost := 1, geo_boost := 1, war_penalty := 1 }

/-- The final-score pass over `combined_results`: weighted fusion when a
keyword score is present, semantic fallback otherwise, multiplied by the
recency boost. -/
def fuseCandidate (parseDate : String → Option Int) (now : Int) (c : Candidate) :
    Candidate :=
  let base_score :=
    if 0 < c.keyword_score then (85/100) * c.keyword_score + (15/100) * c.vector_score
    else c.vector_score
  let recency := calculate_recency_boost parseDate now c.published
  { c with similarity := base_score * recency, recency_boost := recency,
           geo_boost := 1, war_penalty := 1 }

/-- The filtered keyword list of `hybrid_search_internal`: expanded
query minus stop words and words of at most 2 characters. -/
def hybridQueryKeywords (query : String) : List String :=
  (expand_query query).filter (fun k => ¬ stop_words.contains k ∧ 2 < k.length)

/-- `query_ner_normalized`: the set of lowercased normalized entities
extracted from the query. -/
def hybridQueryNer (ext : Ext) (query : String) : List String :=
  dedupKeep ((ext.nerQuery query).map pyLower)

/-- `keyword_results` after the multi-match and stored-entity boosts. -/
def boostedResults (ext : Ext) (corpus : List NewsRow) (query : String)
    (kr : List KEntry) : List KEntry :=
  nerDbBoost (hybridQueryNer ext query) corpus
    (multiMatchBoost ext.morphLexeme (hybridQueryKeywords query) kr)

/-- `combined_results` after the final-score pass, in dict order. -/
def fusedResults (ext : Ext) (now : Int) (vr : List (Nat × ℚ)) (kr2 : List KEntry) :
    List Candidate :=
  (kr2.map (mkCombined ext.bank (maxKeywordScore kr2) vr)).map
    (fuseCandidate ext.parseDate now)

/-- `hybrid_search_internal`: query expansion, stop-word filtering,
keyword scoring with morphology and NER boosts, vector scan, score
fusion with recency, descending sort and truncation to `top_k`. -/
def hybrid_search_internal (ext : Ext) (now : Int) (corpus : List NewsRow)
    (query : String) (top_k : Nat) : Except Unit (List Candidate) :=
  match lexicalStage ext.morphLexeme corpus (hybridQueryNer ext query)
      (hybridQueryKeywords query) with
  | Except.error e => Except.error e
  | Except.ok kr =>
    let kr2 := boostedResults ext corpus query kr
    match vectorStage ext corpus query with
    | Except.error e => Except.error e
    | Except.ok vr =>
        Except.ok ((sortDescBy (fun c => c.similarity) (fusedResults ext now vr kr2)).take top_k)

/-! ## Base vector search (`NewsRAGSystem.search_similar` in
`news_rag_system.py`) -/

namespace NewsRAGSystem

/-- The body of the scan loop of `search_similar`: decode the stored
blob (raises on NULL), compute cosine similarity (raises on dimension
mismatch), build the result dict. -/
def scoreRow (ext : Ext) (qe : List ℚ) (row : NewsRow) : Except Unit NewsDict := do
  let emb ← frombuffer row.embedding
  let sim ← cosineSim ext.sqrtQ qe emb
  pure ({ id := row.id, title := row.title, description := row.description,
          link := row.link, source := row.source, published := row.published,
          similarity := sim } : NewsDict)

/-- `search_similar`: embed the query (empty result when that fails),
decode every stored embedding, score by cosine similarity, sort
descending and truncate.  A NULL blob or a dimension mismatch raises
inside the loop and aborts the whole call. -/
def search_similar (ext : Ext) (corpus : List NewsRow) (query : String)
    (top_k : Nat) : Except Unit (List NewsDict) :=
  match ext.embed query with
  | none => Except.ok []
  | some qe =>
      match mapE (scoreRow ext qe) corpus with
      | Except.error e => Except.error e
      | Except.ok results =>
          Except.ok ((sortDescBy (fun n => n.similarity) results).take top_k)

end NewsRAGSystem

/-! ## Learned reranking (`LTRNewsRAGSystem.search_similar` in
`integrate_ltr_model.py`) -/

/-- The loaded model artifact: the stored ordered feature-column names
and the model's per-row scoring function. -/
structure ModelArtifact where
  featureColumns : List String
  predict : List ℚ → ℚ

/-- `features[col]`: dictionary lookup by feature name; an unknown
column name raises a `KeyError`. -/
def featureGet (f : Features) (name : String) : Except Unit ℚ :=
  if name = "embedding_score" then pure f.embedding_score
  else if name = "bm25_score" then pure f.bm25_score
  else if name = "ner_overlap" then pure f.ner_overlap
  else if name = "morpho_match" then pure f.morpho_match
  else if name = "title_match" then pure f.title_match
  else if name = "exact_match" then pure f.exact_match
  else if name = "days_ago" then pure f.days_ago
  else if name = "source_authority" then pure f.source_authority
  else if name = "text_length" then pure f.text_length
  else Except.error ()

namespace LTRNewsRAGSystem

/-- The per-candidate reranking step: compute the 9 features, reorder
them to the artifact's stored column order (raising on an unknown
column name) and score the vector with the model. -/
def scoreCandidate (art : ModelArtifact) (ext : Ext) (now : Int)
    (corpus : List NewsRow) (query : String) (news : NewsDict) :
    Except Unit (NewsDict × ℚ) := do
  let feats := Sys.calculate_features ext now query news (entitiesOf corpus news.id)
  let vec ← mapE (featureGet feats) art.featureColumns
  pure (news, art.predict vec)

/-- `LTRNewsRAGSystem.search_similar`: fetch `min(100, top_k * 10)`
candidates from the base vector search, compute the features of every
candidate, reorder them to the artifact's stored column order, score
each vector with the model, sort by model score descending and return
the first `top_k` (each with its `ltr_score`). -/
def search_similar (art : ModelArtifact) (ext : Ext) (now : Int)
    (corpus : List NewsRow) (query : String) (top_k : Nat) :
    Except Unit (List (NewsDict × ℚ)) :=
  match NewsRAGSystem.search_similar ext corpus query (min 100 (top_k * 10)) with
  | Except.error e => Except.error e
  | Except.ok candidates =>
    if candidates.isEmpty then Except.ok []
    else
      match mapE (scoreCandidate art ext now corpus query) candidates with
      | Except.error e => Except.error e
      | Except.ok scored =>
          Except.ok ((sortDescBy (fun p => p.2) scored).take top_k)

end LTRNewsRAGSystem

/-! ## The exposed search operation (`news_collector_service.py`):
the module-level `rag` object is an `LTRNewsRAGSystem` when a model
artifact file exists and a plain `NewsRAGSystem` otherwise, and the
`/search` endpoint calls `rag.search_similar` directly. -/

/-- The ranked list the `/search` endpoint renders, as pairs of the
result dict and the optional `ltr_score` (absent in the base state). -/
def serviceSearch (model : Option ModelArtifact) (ext : Ext) (now : Int)
    (corpus : List NewsRow) (query : String) (top_k : Nat) :
    Except Unit (List (NewsDict × Option ℚ)) :=
  match model with
  | none =>
      match NewsRAGSystem.search_similar ext corpus query top_k with
      | Except.error e => Except.error e
      | Except.ok r => Except.ok (r.map (fun n => (n, none)))
  | some art =>
      match LTRNewsRAGSystem.search_similar art ext now corpus query top_k with
      | Except.error e => Except.error e
      | Except.ok r => Except.ok (r.map (fun p => (p.1, some p.2)))

/-! ## Training split (`train_ltr_model.py`) -/

/-- Lexicographic comparison of character lists by code point (how both
Python and pandas compare strings). -/
def charListLe : List Char → List Char → Bool
  | [], _ => true
  | _ :: _, [] => false
  | a :: as2, b :: bs =>
    if a.toNat < b.toNat then true
    else if a.toNat = b.toNat then charListLe as2 bs
    else false

/-- String order by code points. -/
def strLe (a b : String) : Bool := charListLe a.data b.data

/-- Ascending insertion into a string list (pandas sorts group keys). -/
def insertAsc (x : String) : List String → List String
  | [] => [x]
  | y :: ys => if strLe x y then x :: y :: ys else y :: insertAsc x ys

/-- Ascending sort of a string list. -/
def sortAsc (l : List String) : List String := l.foldr insertAsc []

/-- `df.groupby('query').size().values` in `prepare_training_data`:
group sizes keyed by the distinct queries in SORTED order, while the
dataframe rows themselves keep the dataset's original order. -/
def query_groups (rows : List String) : List Nat :=
  (sortAsc (dedupKeep rows)).map (fun q => (rows.filter (fun r => r = q)).length)

/-- The 80/20 split of `train_lightgbm_ranker`: take the first
`int(0.8 * n_groups)` group sizes (in sorted-key order), sum them, and
slice the rows (which are in original order) at that index.  `rows` is
the per-row query column; the function returns the train and test
partitions of that column.  `int(0.8 * n)` computed in floating point
equals `8 * n / 10` in integer division because the double nearest to
0.8 is slightly above 4/5. -/
def train_split (rows : List String) : List String × List String :=
  let groups := query_groups rows
  let n_groups := groups.length
  let n_train_groups := (8 * n_groups) / 10
  let train_size := (groups.take n_train_groups).sum
  (rows.take train_size, rows.drop train_size)

/-! ## Spec-side definitions for the refinement claims -/

/-- Modelled from the spec, section 4.2: the semantic scorer ranks the
whole corpus by cosine similarity between the query embedding and each
stored embedding, sorted descending and truncated to `top_k` (written
from the spec's words, to be compared with the source's
`search_similar`). -/
def specSemanticRanking (ext : Ext) (corpus : List NewsRow) (query : String)
    (top_k : Nat) : List NewsDict :=
  match ext.embed query with
  | none => []
  | some qe =>
    (sortDescBy (fun n => n.similarity)
      (corpus.map (fun row =>
        let emb := row.embedding.getD []
        { id := row.id, title := row.title, description := row.description,
          link := row.link, source := row.source, published := row.published,
          similarity := (List.zipWith (fun a b => a * b) qe emb).sum /
            (normQ ext.sqrtQ qe * normQ ext.sqrtQ emb) }))).take top_k

/-- The news dict carried by a hybrid-search candidate (the keys the
feature extractor would read from it). -/
def candToDict (c : Candidate) : NewsDict :=
  { id := c.id, title := c.title, description := c.description, link := c.link,
    source := c.source, published := c.published, similarity := c.similarity }

/-- Modelled from the claim for section 4.7: the reranker as the claim
states it, with the widened candidates produced via the section 4.5
base fusion ranking (`hybrid_search_internal`) instead of the base
vector search; written to be compared against the source's
`LTRNewsRAGSystem.search_similar`. -/
def claimLtrOverFusion (art : ModelArtifact) (ext : Ext) (now : Int)
    (corpus : List NewsRow) (query : String) (top_k : Nat) :
    Except Unit (List (Candidate × ℚ)) :=
  match hybrid_search_internal ext now corpus query (min 100 (top_k * 10)) with
  | Except.error e => Except.error e
  | Except.ok candidates =>
    match mapE (fun c => do
        let feats := Sys.calculate_features ext now query (candToDict c)
          (entitiesOf corpus c.id)
        let vec ← mapE (featureGet feats) art.featureColumns
        pure (c, art.predict vec)) candidates with
    | Except.error e => Except.error e
    | Except.ok scored =>
        Except.ok ((sortDescBy (fun p => p.2) scored).take top_k)

/-- Modelled from the spec, section 4.7 as amended: widen candidate
generation to `min(100, top_k * 10)` via the base semantic similarity
ranking, compute each candidate's features reordered to the artifact's
stored column order, score each vector with the model, sort by model
score descending and truncate to `top_k`. -/
def specLtrSemanticRerank (art : ModelArtifact) (ext : Ext) (now : Int)
    (corpus : List NewsRow) (query : String) (top_k : Nat) :
    Except Unit (List (NewsDict × ℚ)) :=
  match NewsRAGSystem.search_similar ext corpus query (min 100 (top_k * 10)) with
  | Except.error e => Except.error e
  | Except.ok widened =>
    match mapE (LTRNewsRAGSystem.scoreCandidate art ext now corpus query) widened with
    | Except.error e => Except.error e
    | Except.ok scored =>
        Except.ok ((sortDescBy (fun p => p.2) scored).take top_k)

/-- A corpus row has a usable embedding for query embedding `qe`:
present and of the same dimensionality. -/
def goodEmb (qe : List ℚ) (row : NewsRow) : Bool :=
  match row.embedding with
  | some emb => emb.length == qe.length
  | none => false

/-! ## Concrete instantiations of the external collaborators, used by
witnesses and counterexamples -/

/-- A square root usable on the concrete sums of squares below. -/
def sqrtTest : ℚ → ℚ := fun q => if q = 1 then 1 else 0

/-- Trivial external providers over 2-dimensional embeddings: no
morphology, no entities, every text embeds to `[1, 0]`, no parsable
dates, empty keyword configuration. -/
def extTest : Ext :=
  { morphLexeme := fun _ => []
    normalForm := fun w => w
    nerQuery := fun _ => []
    embed := fun _ => some [1, 0]
    parseDate := fun _ => none
    sqrtQ := sqrtTest
    bank := { critical := [], high := [], exclude := [] } }

/-- A document with no occurrence of the query word "alpha". -/
def rowBravo : NewsRow :=
  { id := 1, title := "bravo news", description := "", link := "", source := "",
    published := "", embedding := some [1, 0], fullText := "", entities := [] }

def corpusOneDoc : List NewsRow := [rowBravo]

/-- A strong lexical match whose embedding equals the query embedding. -/
def rowAlphaBeta : NewsRow :=
  { id := 1, title := "alpha beta", description := "alpha beta", link := "",
    source := "", published := "", embedding := some [1, 0],
    fullText := "alpha beta", entities := [] }

/-- A weak lexical match whose embedding is opposite to the query
embedding, so its cosine similarity is -1. -/
def rowOpposite : NewsRow :=
  { id := 2, title := "zulu", description := "", link := "", source := "",
    published := "", embedding := some [-1, 0], fullText := "alpha", entities := [] }

def corpusNeg : List NewsRow := [rowAlphaBeta, rowOpposite]

/-- A document whose stored embedding blob is NULL. -/
def rowNoEmbedding : NewsRow :=
  { id := 2, title := "charlie", description := "", link := "", source := "",
    published := "", embedding := none, fullText := "", entities := [] }

/-- A document whose stored embedding has the wrong dimensionality. -/
def rowWrongDim : NewsRow :=
  { id := 3, title := "delta", description := "", link := "", source := "",
    published := "", embedding := some [1, 0, 0], fullText := "", entities := [] }

/-- A model artifact reading just the `embedding_score` column and
scoring a candidate by it. -/
def artTest : ModelArtifact :=
  { featureColumns := ["embedding_score"], predict := fun v => v.headD 0 }

/-- The `keyword_results` the lexical stage computes on `corpusNeg` for
the query "alpha beta". -/
def krNeg : List KEntry :=
  [{ id := 1, title := "alpha beta", description := "alpha beta", link := "",
     source := "", published := "", embedding := [1, 0], keyword_score := 15 },
   { id := 2, title := "zulu", description := "", link := "", source := "",
     published := "", embedding := [-1, 0], keyword_score := 1 }]

/-- The vector scores on `corpusNeg` for the query "alpha beta". -/
def vrNeg : List (Nat × ℚ) := [(1, 1), (2, -1)]

/-- The hybrid-search output on `corpusNeg` for "alpha beta". -/
def outNeg : List Candidate :=
  (sortDescBy (fun c => c.similarity)
    (fusedResults extTest 0 vrNeg (boostedResults extTest corpusNeg "alpha beta" krNeg))).take 10

def cNeg0 : Candidate := outNeg.headD default

/-- The second candidate of `outNeg` (the weak lexical match with
negative semantic similarity). -/
def cNeg1 : Candidate := (outNeg.drop 1).headD default

/-- The ids of a reranked result, in output order. -/
def ltrIds (r : Except Unit (List (NewsDict × ℚ))) : List Nat :=
  match r with
  | Except.ok l => l.map (fun p => p.1.id)
  | Except.error _ => []

/-- The ids of a claim-side (fusion-widened) reranked result. -/
def claimLtrIds (r : Except Unit (List (Candidate × ℚ))) : List Nat :=
  match r with
  | Except.ok l => l.map (fun p => p.1.id)
  | Except.error _ => []

def corpusPos : List NewsRow := [rowAlphaBeta]

/-- The `keyword_results` of the lexical stage on `corpusPos`. -/
def krPos : List KEntry :=
  [{ id := 1, title := "alpha beta", description := "alpha beta", link := "",
     source := "", published := "", embedding := [1, 0], keyword_score := 15 }]

def vrPos : List (Nat × ℚ) := [(1, 1)]

/-- The hybrid-search output on `corpusPos` for "alpha beta". -/
def outPos : List Candidate :=
  (sortDescBy (fun c => c.similarity)
    (fusedResults extTest 0 vrPos (boostedResults extTest corpusPos "alpha beta" krPos))).take 10

def cPos0 : Candidate := outPos.headD default

end BankNews

deriving instance DecidableEq for Except

unseal Rat.add Rat.mul Rat.sub Rat.inv Rat.ofScientific

namespace BankNews

/-! ## Lemmas about the stable descending sort -/

theorem mem_insertDescBy {α : Type} (key : α → ℚ) (x : α) (l : List α) (a : α) :
    a ∈ insertDescBy key x l ↔ a = x ∨ a ∈ l := by
  induction l with
  | nil => simp [insertDescBy]
  | cons y ys ih =>
      by_cases h : key x < key y
      · simp only [insertDescBy, if_pos h, List.mem_cons, ih]
        tauto
      · simp only [insertDescBy, if_neg h, List.mem_cons]

theorem mem_sortDescBy {α : Type} (key : α → ℚ) (l : List α) (a : α) :
    a ∈ sortDescBy key l ↔ a ∈ l := by
  induction l with
  | nil => simp [sortDescBy]
  | cons y ys ih =>
      simp only [sortDescBy, List.foldr_cons] at *
      rw [mem_insertDescBy, ih, List.mem_cons]

theorem sortedDesc_insertDescBy {α : Type} (key : α → ℚ) (x : α) (l : List α)
    (h : SortedDesc key l) : SortedDesc key (insertDescBy key x l) := by
  induction l with
  | nil => simp [insertDescBy, SortedDesc]
  | cons y ys ih =>
      rcases List.pairwise_cons.mp h with ⟨hy, hys⟩
      by_cases hlt : key x < key y
      · simp only [insertDescBy, if_pos hlt]
        refine List.pairwise_cons.mpr ⟨?_, ih hys⟩
        intro b hb
        rcases (mem_insertDescBy key x ys b).mp hb with rfl | hb
        · exact le_of_lt hlt
        · exact hy b hb
      · simp only [insertDescBy, if_neg hlt]
        refine List.pairwise_cons.mpr ⟨?_, h⟩
        intro b hb
        rcases List.mem_cons.mp hb with rfl | hb
        · exact le_of_not_lt hlt
        · exact le_trans (hy b hb) (le_of_not_lt hlt)

theorem sortedDesc_sortDescBy {α : Type} (key : α → ℚ) (l : List α) :
    SortedDesc key (sortDescBy key l) := by
  induction l with
  | nil => simp [sortDescBy, SortedDesc]
  | cons y ys ih => exact sortedDesc_insertDescBy key y _ ih

theorem sortedDesc_take {α : Type} (key : α → ℚ) (l : List α) (n : Nat)
    (h : SortedDesc key l) : SortedDesc key (l.take n) :=
  List.Pairwise.sublist (List.take_sublist n l) h

/-! ## Lemmas about the effectful loops -/

theorem mapE_error_of_mem {α β : Type} {f : α → Except Unit β} {l : List α} {a : α}
    (ha : a ∈ l) (hf : f a = Except.error ()) : mapE f l = Except.error () := by
  induction l with
  | nil => cases ha
  | cons x xs ih =>
      rcases List.mem_cons.mp ha with rfl | ha2
      · unfold mapE
        rw [hf]
      · unfold mapE
        cases hfx : f x with
        | error e => cases e; rfl
        | ok y => rw [ih ha2]

theorem mapE_ok_map {α β : Type} {f : α → Except Unit β} {g : α → β} (l : List α)
    (h : ∀ a ∈ l, f a = Except.ok (g a)) : mapE f l = Except.ok (l.map g) := by
  induction l with
  | nil => rfl
  | cons x xs ih =>
      unfold mapE
      rw [h x (List.mem_cons_self x xs), ih (fun a ha => h a (List.mem_cons_of_mem x ha))]
      rfl

theorem foldE_pres {α β : Type} {f : β → α → Except Unit β} {Q : β → Prop}
    (hf : ∀ b a b1, f b a = Except.ok b1 → Q b → Q b1) :
    ∀ (l : List α) (b b1 : β), foldE f b l = Except.ok b1 → Q b → Q b1 := by
  intro l
  induction l with
  | nil =>
      intro b b1 h hb
      unfold foldE at h
      cases h
      exact hb
  | cons x xs ih =>
      intro b b1 h hb
      unfold foldE at h
      cases hfx : f b x with
      | error e => rw [hfx] at h; cases h
      | ok b2 =>
          rw [hfx] at h
          exact ih b2 b1 h (hf b x b2 hfx hb)

/-! ## Positivity of the accumulated keyword scores -/

theorem positionWeight_nonneg (keyword : String) (qNer : List String) (ft fd fx : Bool) :
    0 ≤ positionWeight keyword qNer ft fd fx := by
  unfold positionWeight
  refine add_nonneg (add_nonneg ?_ ?_) ?_ <;> split_ifs <;> norm_num

theorem positionWeight_pos (keyword : String) (qNer : List String) {ft fd fx : Bool}
    (h : (ft || fd || fx) = true) : 0 < positionWeight keyword qNer ft fd fx := by
  unfold positionWeight
  cases ft <;> cases fd <;> cases fx <;> simp_all <;> split_ifs <;> norm_num

theorem mem_addScoreTo {kr : List KEntry} {i : Nat} {w : ℚ} {e : KEntry}
    (he : e ∈ addScoreTo kr i w) :
    ∃ e0 ∈ kr,
      e = (if e0.id = i then { e0 with keyword_score := e0.keyword_score + w } else e0) := by
  unfold addScoreTo at he
  rcases List.mem_map.mp he with ⟨e0, he0, rfl⟩
  exact ⟨e0, he0, rfl⟩

theorem newEntryStep_cases {kr : List KEntry} {row : NewsRow} {kr1 : List KEntry}
    (h : newEntryStep kr row = Except.ok kr1)
    (hp : ∀ e ∈ kr, 0 < e.keyword_score) :
    ∀ e ∈ kr1, 0 < e.keyword_score ∨ (e.keyword_score = 0 ∧ e.id = row.id) := by
  unfold newEntryStep at h
  by_cases hc : containsId kr row.id
  · rw [if_pos hc] at h
    cases h
    exact fun e he => Or.inl (hp e he)
  · rw [if_neg hc] at h
    cases hemb : row.embedding with
    | none => rw [hemb] at h; cases h
    | some emb =>
        rw [hemb] at h
        cases h
        intro e he
        rcases List.mem_append.mp he with he2 | he2
        · exact Or.inl (hp e he2)
        · rcases List.mem_singleton.mp he2 with rfl
          exact Or.inr ⟨rfl, rfl⟩

theorem processRow_pos {keyword : String} {forms qNer : List String} {kr : List KEntry}
    {row : NewsRow} {kr1 : List KEntry}
    (h : processRow keyword forms qNer kr row = Except.ok kr1)
    (hp : ∀ e ∈ kr, 0 < e.keyword_score) : ∀ e ∈ kr1, 0 < e.keyword_score := by
  unfold processRow at h
  by_cases h1 : rowLikeMatch forms row
  · simp only [h1, not_true_eq_false, if_false, Bool.not_eq_true] at h
    by_cases h2 : (forms.any (fun f => word_in_text f row.title)
        || forms.any (fun f => word_in_text f row.description)
        || forms.any (fun f => word_in_text f row.fullText)) = true
    · simp only [h2, not_true_eq_false, if_false] at h
      cases hne : newEntryStep kr row with
      | error e => rw [hne] at h; cases h
      | ok kr2 =>
          rw [hne] at h
          cases h
          intro e he
          rcases mem_addScoreTo he with ⟨e0, he0, rfl⟩
          have hw : 0 < positionWeight keyword qNer
              (forms.any (fun f => word_in_text f row.title))
              (forms.any (fun f => word_in_text f row.description))
              (forms.any (fun f => word_in_text f row.fullText)) :=
            positionWeight_pos keyword qNer h2
          rcases newEntryStep_cases hne hp e0 he0 with h0 | ⟨h0, hid⟩
          · by_cases hi : e0.id = row.id
            · rw [if_pos hi]
              exact add_pos h0 hw
            · rw [if_neg hi]
              exact h0
          · rw [if_pos hid, h0]
            simpa using hw
    · simp only [h2, Bool.not_eq_true, not_false_eq_true, if_true] at h
      cases h
      exact hp
  · simp only [h1, Bool.not_eq_true, not_false_eq_true, if_true] at h
    cases h
    exact hp

theorem lexicalStage_pos {morph : String → List String} {corpus : List NewsRow}
    {qNer keywords : List String} {kr : List KEntry}
    (h : lexicalStage morph corpus qNer keywords = Except.ok kr) :
    ∀ e ∈ kr, 0 < e.keyword_score := by
  have hkw : ∀ (b : List KEntry) (a : String) (b1 : List KEntry),
      processKeyword morph corpus qNer b a = Except.ok b1 →
      (∀ e ∈ b, 0 < e.keyword_score) → ∀ e ∈ b1, 0 < e.keyword_score := by
    intro b a b1 hb hq
    unfold processKeyword at hb
    exact foldE_pres (fun b2 row b3 h3 => processRow_pos h3) corpus b b1 hb hq
  unfold lexicalStage at h
  exact foldE_pres hkw keywords [] kr h (by intro e he; cases he)

theorem multiMatchBoost_pos {morph : String → List String} {keywords : List String}
    {kr : List KEntry} (hp : ∀ e ∈ kr, 0 < e.keyword_score) :
    ∀ e ∈ multiMatchBoost morph keywords kr, 0 < e.keyword_score := by
  intro e he
  unfold multiMatchBoost at he
  rcases List.mem_map.mp he with ⟨e0, he0, rfl⟩
  by_cases hm : 2 ≤ (keywords.filter (fun kw =>
      (get_word_forms morph kw).any (fun f => word_in_text f e0.title))).length
  · rw [if_pos hm]
    have h2 : (2:ℚ) ≤ ((keywords.filter (fun kw =>
        (get_word_forms morph kw).any (fun f => word_in_text f e0.title))).length : ℚ) := by
      exact_mod_cast hm
    have : (0:ℚ) < 1 + (((keywords.filter (fun kw =>
        (get_word_forms morph kw).any (fun f => word_in_text f e0.title))).length : ℚ) - 1)
        * (3/10) := by nlinarith
    exact mul_pos (hp e0 he0) this
  · rw [if_neg hm]
    exact hp e0 he0

theorem nerDbBoost_pos {qNer : List String} {corpus : List NewsRow} {kr : List KEntry}
    (hp : ∀ e ∈ kr, 0 < e.keyword_score) :
    ∀ e ∈ nerDbBoost qNer corpus kr, 0 < e.keyword_score := by
  intro e he
  unfold nerDbBoost at he
  by_cases hq : qNer = []
  · rw [if_pos hq] at he
    exact hp e he
  · rw [if_neg hq] at he
    rcases List.mem_map.mp he with ⟨e0, he0, rfl⟩
    by_cases hm : 0 < (dedupKeep ((entitiesOf corpus e0.id).filter
        (fun s => sqlLower s ∈ qNer))).length
    · rw [if_pos hm]
      have : (0:ℚ) < 1 + ((dedupKeep ((entitiesOf corpus e0.id).filter
          (fun s => sqlLower s ∈ qNer))).length : ℚ) * (2/5) := by positivity
      exact mul_pos (hp e0 he0) this
    · rw [if_neg hm]
      exact hp e0 he0

theorem boostedResults_pos {ext : Ext} {corpus : List NewsRow} {query : String}
    {kr : List KEntry} (hp : ∀ e ∈ kr, 0 < e.keyword_score) :
    ∀ e ∈ boostedResults ext corpus query kr, 0 < e.keyword_score := by
  unfold boostedResults
  exact nerDbBoost_pos (multiMatchBoost_pos hp)

/-! ## The corpus-wide maximum -/

theorem le_foldl_max (l : List ℚ) : ∀ b : ℚ, b ≤ l.foldl max b := by
  induction l with
  | nil => intro b; exact le_refl b
  | cons x xs ih => intro b; exact le_trans (le_max_left b x) (ih (max b x))

theorem mem_le_foldl_max {x : ℚ} {l : List ℚ} (hx : x ∈ l) : ∀ b : ℚ, x ≤ l.foldl max b := by
  induction l with
  | nil => cases hx
  | cons y ys ih =>
      intro b
      rcases List.mem_cons.mp hx with rfl | hx2
      · exact le_trans (le_max_right b x) (le_foldl_max ys (max b x))
      · exact ih hx2 (max b y)

theorem le_maxKeywordScore {e : KEntry} {kr : List KEntry} (he : e ∈ kr) :
    e.keyword_score ≤ maxKeywordScore kr := by
  cases kr with
  | nil => cases he
  | cons k ks =>
      unfold maxKeywordScore
      simp only [List.map_cons]
      rcases List.mem_cons.mp he with rfl | he2
      · exact le_foldl_max _ _
      · exact mem_le_foldl_max (List.mem_map_of_mem (fun x => x.keyword_score) he2) _

/-! ## Per-candidate facts about the fusion pass -/

theorem mem_fusedResults {ext : Ext} {now : Int} {vr : List (Nat × ℚ)}
    {kr2 : List KEntry} {c : Candidate} (hc : c ∈ fusedResults ext now vr kr2) :
    ∃ e ∈ kr2,
      c = fuseCandidate ext.parseDate now (mkCombined ext.bank (maxKeywordScore kr2) vr e) := by
  unfold fusedResults at hc
  rcases List.mem_map.mp hc with ⟨c0, hc0, rfl⟩
  rcases List.mem_map.mp hc0 with ⟨e, he, rfl⟩
  exact ⟨e, he, rfl⟩

theorem vecScore_nonneg {vr : List (Nat × ℚ)} (h : ∀ p ∈ vr, 0 ≤ p.2) (i : Nat) :
    0 ≤ vecScore vr i := by
  unfold vecScore
  cases hf : vr.find? (fun p => p.1 = i) with
  | none => exact le_refl 0
  | some p => exact h p (List.mem_of_find?_eq_some hf)

theorem calculate_recency_boost_pos (parseDate : String → Option Int) (now : Int)
    (s : String) : 0 < calculate_recency_boost parseDate now s := by
  unfold calculate_recency_boost
  by_cases hs : s = ""
  · rw [if_pos hs]; norm_num
  · rw [if_neg hs]
    cases parseDate s with
    | none => norm_num
    | some pub =>
        dsimp only
        split_ifs <;> norm_num

theorem fusedResults_props {ext : Ext} {now : Int} {vr : List (Nat × ℚ)}
    {kr2 : List KEntry} {c : Candidate}
    (hc : c ∈ fusedResults ext now vr kr2)
    (hp : ∀ e ∈ kr2, 0 < e.keyword_score) :
    0 < c.keyword_score ∧ c.keyword_score ≤ 1
    ∧ c.similarity = ((85/100) * c.keyword_score + (15/100) * c.vector_score) * c.recency_boost
    ∧ c.recency_boost = calculate_recency_boost ext.parseDate now c.published
    ∧ c.bank_boost = 1
    ∧ (∃ i : Nat, c.vector_score = vecScore vr i) := by
  rcases mem_fusedResults hc with ⟨e, he, rfl⟩
  have hmx : 0 < maxKeywordScore kr2 := lt_of_lt_of_le (hp e he) (le_maxKeywordScore he)
  have hkw : (fuseCandidate ext.parseDate now
      (mkCombined ext.bank (maxKeywordScore kr2) vr e)).keyword_score
      = e.keyword_score / maxKeywordScore kr2 := by
    simp only [fuseCandidate, mkCombined, if_pos hmx]
  have hkwpos : 0 < (fuseCandidate ext.parseDate now
      (mkCombined ext.bank (maxKeywordScore kr2) vr e)).keyword_score := by
    rw [hkw]; exact div_pos (hp e he) hmx
  refine ⟨hkwpos, ?_, ?_, ?_, ?_, ?_⟩
  · rw [hkw]
    exact (div_le_one hmx).mpr (le_maxKeywordScore he)
  · simp only [fuseCandidate, mkCombined] at hkwpos ⊢
    rw [if_pos hkwpos]
  · rfl
  · rfl
  · exact ⟨e.id, rfl⟩

/-! ## Shape of a successful hybrid search -/

theorem hybrid_search_eq_ok {ext : Ext} {now : Int} {corpus : List NewsRow}
    {query : String} {top_k : Nat} {kr : List KEntry} {vr : List (Nat × ℚ)}
    (hl : lexicalStage ext.morphLexeme corpus (hybridQueryNer ext query)
      (hybridQueryKeywords query) = Except.ok kr)
    (hv : vectorStage ext corpus query = Except.ok vr) :
    hybrid_search_internal ext now corpus query top_k =
      Except.ok ((sortDescBy (fun c => c.similarity)
        (fusedResults ext now vr (boostedResults ext corpus query kr))).take top_k) := by
  unfold hybrid_search_internal
  rw [hl, hv]

theorem hybrid_ok_elim {ext : Ext} {now : Int} {corpus : List NewsRow}
    {query : String} {top_k : Nat} {out : List Candidate}
    (h : hybrid_search_internal ext now corpus query top_k = Except.ok out) :
    ∃ kr vr,
      lexicalStage ext.morphLexeme corpus (hybridQueryNer ext query)
        (hybridQueryKeywords query) = Except.ok kr
      ∧ vectorStage ext corpus query = Except.ok vr
      ∧ out = (sortDescBy (fun c => c.similarity)
          (fusedResults ext now vr (boostedResults ext corpus query kr))).take top_k := by
  unfold hybrid_search_internal at h
  cases hl : lexicalStage ext.morphLexeme corpus (hybridQueryNer ext query)
      (hybridQueryKeywords query) with
  | error e => rw [hl] at h; cases h
  | ok kr =>
      rw [hl] at h
      cases hv : vectorStage ext corpus query with
      | error e => rw [hv] at h; cases h
      | ok vr =>
          rw [hv] at h
          cases h
          exact ⟨kr, vr, rfl, rfl, rfl⟩

/-! ## The claims -/

/-- Claim C1: for every (query, candidate) pair, with the same stored
entities and the same current time (and the same external providers),
the feature vector computed by the offline dataset generator equals the
one computed by the online scorer, element for element, in the same
named order. -/
theorem C1_offline_online_features_agree (ext : Ext) (now : Int) (query : String)
    (news : NewsDict) (stored : List String) :
    Gen.calculate_features ext now query news stored
      = Sys.calculate_features ext now query news stored := rfl

/-- Claim C5 (code bug): `prepare_training_data` takes the group sizes
in pandas' sorted-key order while `train_lightgbm_ranker` slices the
rows in dataset order, so on the dataset whose query column is
[b, b, b, a] the rows of query "b" end up in both the train and the
validation partition. -/
theorem C5_split_leaks_query_across_partitions :
    "b" ∈ (train_split ["b", "b", "b", "a"]).1
    ∧ "b" ∈ (train_split ["b", "b", "b", "a"]).2 := by
  decide

/-- Claim C6: the recency multiplier is total (1.0 on an empty or
unparsable date), equals the bucket function of the age in hours for a
parsable date, takes the exact values 1.30 / 1.20 / 1.10 / 1.05 / 1.00
on the five buckets, and is non-increasing in the age. -/
theorem C6_recency_boost_total_buckets_monotone
    (parseDate : String → Option Int) (now : Int) (published : String) :
    (published = "" → calculate_recency_boost parseDate now published = 1)
    ∧ (parseDate published = none → calculate_recency_boost parseDate now published = 1)
    ∧ (∀ pub : Int, published ≠ "" → parseDate published = some pub →
        calculate_recency_boost parseDate now published
          = boostOfAge (((now - pub : Int) : ℚ) / 3600))
    ∧ (∀ a : ℚ,
        (a < 24 → boostOfAge a = 13/10)
        ∧ (24 ≤ a → a < 72 → boostOfAge a = 6/5)
        ∧ (72 ≤ a → a < 168 → boostOfAge a = 11/10)
        ∧ (168 ≤ a → a < 720 → boostOfAge a = 21/20)
        ∧ (720 ≤ a → boostOfAge a = 1))
    ∧ (∀ a b : ℚ, a ≤ b → boostOfAge b ≤ boostOfAge a) := by
  refine ⟨?_, ?_, ?_, ?_, ?_⟩
  · intro h
    simp [calculate_recency_boost, h]
  · intro h
    by_cases hs : published = ""
    · simp [calculate_recency_boost, hs]
    · simp [calculate_recency_boost, hs, h]
  · intro pub hne hp
    simp [calculate_recency_boost, hne, hp, boostOfAge]
  · intro a
    refine ⟨?_, ?_, ?_, ?_, ?_⟩
    · intro h1
      simp [boostOfAge, h1]
    · intro h1 h2
      simp only [boostOfAge]
      rw [if_neg (by linarith), if_pos h2]
    · intro h1 h2
      simp only [boostOfAge]
      rw [if_neg (by linarith), if_neg (by linarith), if_pos h2]
    · intro h1 h2
      simp only [boostOfAge]
      rw [if_neg (by linarith), if_neg (by linarith), if_neg (by linarith), if_pos h2]
    · intro h1
      simp only [boostOfAge]
      rw [if_neg (by linarith), if_neg (by linarith), if_neg (by linarith),
        if_neg (by linarith)]
  · intro a b hab
    unfold boostOfAge
    split_ifs <;> linarith

/-- Witness for C6 at concrete inputs: a 10-hour-old document gets
exactly 1.30, and a 1000-hour-old document gets at most what a
400-hour-old one gets. -/
theorem C6_witness :
    calculate_recency_boost (fun _ => some 0) 36000 "d" = boostOfAge 10
    ∧ boostOfAge 10 = 13/10
    ∧ boostOfAge 1000 ≤ boostOfAge 400 := by
  have h := C6_recency_boost_total_buckets_monotone (fun _ => some 0) 36000 "d"
  refine ⟨?_, ?_, ?_⟩
  · have h2 := h.2.2.1 0 (by decide) rfl
    norm_num at h2 ⊢
    exact h2
  · exact (h.2.2.2.1 10).1 (by norm_num)
  · exact h.2.2.2.2 400 1000 (by norm_num)

/-- Claim C10: `calculate_banking_relevance` always returns a boost of
exactly 1.0, and every candidate returned by the hybrid search carries
`bank_boost = 1`. -/
theorem C10_bank_boost_always_one :
    (∀ (kw : BankKeywords) (title description : String),
      (calculate_banking_relevance kw title description).boost = 1)
    ∧ (∀ (ext : Ext) (now : Int) (corpus : List NewsRow) (query : String)
        (top_k : Nat) (out : List Candidate),
        hybrid_search_internal ext now corpus query top_k = Except.ok out →
        ∀ c ∈ out, c.bank_boost = 1) := by
  constructor
  · intro kw t d
    rfl
  · intro ext now corpus query top_k out h c hc
    rcases hybrid_ok_elim h with ⟨kr, vr, hl, hv, rfl⟩
    have hc2 : c ∈ fusedResults ext now vr (boostedResults ext corpus query kr) :=
      (mem_sortDescBy _ _ c).mp (List.mem_of_mem_take hc)
    rcases mem_fusedResults hc2 with ⟨e, he, rfl⟩
    rfl

/-- Witness for C10: the top candidate of a concrete hybrid search
carries `bank_boost = 1`. -/
theorem C10_witness : cNeg0.bank_boost = 1 :=
  C10_bank_boost_always_one.2 extTest 0 corpusNeg "alpha beta" 10 outNeg
    (by decide) cNeg0 (by decide)

/-- Claim C7 counterexample: a corpus whose second document has a NULL
embedding blob, or an embedding of the wrong dimensionality, makes the
whole search call raise; the healthy first document is not scored
(without the bad document the same search succeeds). -/
theorem C7_counterexample_bad_embedding_aborts :
    NewsRAGSystem.search_similar extTest [rowBravo, rowNoEmbedding] "alpha" 10
      = Except.error ()
    ∧ NewsRAGSystem.search_similar extTest [rowBravo, rowWrongDim] "alpha" 10
      = Except.error ()
    ∧ NewsRAGSystem.search_similar extTest [rowBravo] "alpha" 10 ≠ Except.ok [] := by
  refine ⟨by decide, by decide, by decide⟩

/-- Claim C7 as amended: when the query embeds and any corpus document
has a missing embedding or one of mismatched dimensionality, the search
does not skip that document: the whole request aborts with an error. -/
theorem C7_amended_bad_embedding_gives_error (ext : Ext) (corpus : List NewsRow)
    (query : String) (top_k : Nat) (qe : List ℚ)
    (hq : ext.embed query = some qe)
    (hbad : ∃ row ∈ corpus, row.embedding = none
        ∨ ∃ emb, row.embedding = some emb ∧ emb.length ≠ qe.length) :
    NewsRAGSystem.search_similar ext corpus query top_k = Except.error () := by
  obtain ⟨row, hrow, hcase⟩ := hbad
  have hf : NewsRAGSystem.scoreRow ext qe row = Except.error () := by
    unfold NewsRAGSystem.scoreRow
    rcases hcase with hnone | ⟨emb, hemb, hlen⟩
    · rw [hnone]
      rfl
    · rw [hemb]
      show (do
        let sim ← cosineSim ext.sqrtQ qe emb
        pure ({ id := row.id, title := row.title, description := row.description,
                link := row.link, source := row.source, published := row.published,
                similarity := sim } : NewsDict)) = (Except.error () : Except Unit NewsDict)
      unfold cosineSim npDot
      rw [if_neg (fun hcon => hlen hcon.symm)]
      rfl
  unfold NewsRAGSystem.search_similar
  rw [hq]
  dsimp only
  rw [mapE_error_of_mem hrow hf]

/-- Witness for the amended C7: a concrete one-document corpus with a
NULL embedding makes the search raise. -/
theorem C7_amended_witness :
    NewsRAGSystem.search_similar extTest [rowNoEmbedding] "alpha" 5 = Except.error () :=
  C7_amended_bad_embedding_gives_error extTest [rowNoEmbedding] "alpha" 5 [1, 0]
    rfl ⟨rowNoEmbedding, by decide, Or.inl rfl⟩

/-- Claim C2: a successful hybrid search returns exactly the first
`top_k` of the fused candidates in descending fused-score order; every
returned candidate has a positive normalized lexical score (so no
vector-only candidate ever appears) and its fused score equals
(0.85 · lexical + 0.15 · semantic) · recency multiplier. -/
theorem C2_fusion_formula_and_order (ext : Ext) (now : Int) (corpus : List NewsRow)
    (query : String) (top_k : Nat) (out : List Candidate) (kr : List KEntry)
    (vr : List (Nat × ℚ))
    (hl : lexicalStage ext.morphLexeme corpus (hybridQueryNer ext query)
      (hybridQueryKeywords query) = Except.ok kr)
    (hv : vectorStage ext corpus query = Except.ok vr)
    (h : hybrid_search_internal ext now corpus query top_k = Except.ok out) :
    out = (sortDescBy (fun c => c.similarity)
        (fusedResults ext now vr (boostedResults ext corpus query kr))).take top_k
    ∧ (∀ c ∈ out, 0 < c.keyword_score
        ∧ c.similarity = ((85/100) * c.keyword_score + (15/100) * c.vector_score)
            * c.recency_boost
        ∧ c.recency_boost = calculate_recency_boost ext.parseDate now c.published)
    ∧ SortedDesc (fun c => c.similarity) out
    ∧ out.length ≤ top_k := by
  have heq := @hybrid_search_eq_ok ext now corpus query top_k kr vr hl hv
  rw [h] at heq
  injection heq with hout
  have hp : ∀ e ∈ boostedResults ext corpus query kr, 0 < e.keyword_score :=
    boostedResults_pos (lexicalStage_pos hl)
  refine ⟨hout, ?_, ?_, ?_⟩
  · intro c hc
    rw [hout] at hc
    have hc2 : c ∈ fusedResults ext now vr (boostedResults ext corpus query kr) :=
      (mem_sortDescBy _ _ c).mp (List.mem_of_mem_take hc)
    have hprops := fusedResults_props hc2 hp
    exact ⟨hprops.1, hprops.2.2.1, hprops.2.2.2.1⟩
  · rw [hout]
    exact sortedDesc_take _ _ _ (sortedDesc_sortDescBy _ _)
  · rw [hout]
    exact List.length_take_le top_k _

/-- Witness for C2 at a concrete two-document corpus. -/
theorem C2_witness :
    outNeg = (sortDescBy (fun c => c.similarity)
        (fusedResults extTest 0 vrNeg (boostedResults extTest corpusNeg "alpha beta" krNeg))).take 10
    ∧ 0 < cNeg0.keyword_score
    ∧ cNeg0.similarity = ((85/100) * cNeg0.keyword_score + (15/100) * cNeg0.vector_score)
        * cNeg0.recency_boost
    ∧ outNeg.length ≤ 10 := by
  have h := C2_fusion_formula_and_order extTest 0 corpusNeg "alpha beta" 10 outNeg
    krNeg vrNeg (by decide) (by decide) (by decide)
  exact ⟨h.1, (h.2.1 cNeg0 (by decide)).1, (h.2.1 cNeg0 (by decide)).2.1, h.2.2.2⟩

/-- Claim C8 counterexample: on a corpus where a weak lexical match has
cosine similarity -1, the hybrid search returns that candidate with a
negative fused score. -/
theorem C8_counterexample_negative_fused_score :
    hybrid_search_internal extTest 0 corpusNeg "alpha beta" 10 = Except.ok outNeg
    ∧ cNeg1 ∈ outNeg
    ∧ cNeg1.similarity < 0 := by
  refine ⟨by decide, by decide, by decide⟩

/-- Claim C8 as amended: fused scores are finite by construction (exact
rational arithmetic), and every fused score of a returned candidate is
non-negative provided every semantic similarity in the vector channel
is non-negative. -/
theorem C8_amended_nonneg_when_semantic_nonneg (ext : Ext) (now : Int)
    (corpus : List NewsRow) (query : String) (top_k : Nat) (out : List Candidate)
    (kr : List KEntry) (vr : List (Nat × ℚ))
    (hl : lexicalStage ext.morphLexeme corpus (hybridQueryNer ext query)
      (hybridQueryKeywords query) = Except.ok kr)
    (hv : vectorStage ext corpus query = Except.ok vr)
    (h : hybrid_search_internal ext now corpus query top_k = Except.ok out)
    (hnn : ∀ p ∈ vr, 0 ≤ p.2) :
    ∀ c ∈ out, 0 ≤ c.similarity := by
  have heq := @hybrid_search_eq_ok ext now corpus query top_k kr vr hl hv
  rw [h] at heq
  injection heq with hout
  have hp : ∀ e ∈ boostedResults ext corpus query kr, 0 < e.keyword_score :=
    boostedResults_pos (lexicalStage_pos hl)
  intro c hc
  rw [hout] at hc
  have hc2 : c ∈ fusedResults ext now vr (boostedResults ext corpus query kr) :=
    (mem_sortDescBy _ _ c).mp (List.mem_of_mem_take hc)
  rcases fusedResults_props hc2 hp with ⟨hkw, _, hsim, hrec, _, i, hvec⟩
  have hv0 : 0 ≤ c.vector_score := by
    rw [hvec]
    exact vecScore_nonneg hnn i
  have hr0 : 0 < c.recency_boost := by
    rw [hrec]
    exact calculate_recency_boost_pos _ _ _
  rw [hsim]
  have : 0 ≤ (85/100) * c.keyword_score + (15/100) * c.vector_score := by
    have := le_of_lt hkw
    positivity
  exact mul_nonneg this (le_of_lt hr0)

/-- Witness for the amended C8 on a corpus whose only semantic
similarity is 1. -/
theorem C8_amended_witness : 0 ≤ cPos0.similarity :=
  C8_amended_nonneg_when_semantic_nonneg extTest 0 corpusPos "alpha beta" 10 outPos
    krPos vrPos (by decide) (by decide) (by decide) (by decide) cPos0 (by decide)

/-- Claim C9 counterexample: on a corpus with no lexical match but a
document of positive semantic similarity, the hybrid search returns the
empty list: fusion does not fall back to semantic-only scoring. -/
theorem C9_counterexample_no_semantic_fallback :
    hybrid_search_internal extTest 0 corpusOneDoc "alpha" 10 = Except.ok []
    ∧ vectorStage extTest corpusOneDoc "alpha" = Except.ok [(1, 1)]
    ∧ (0 : ℚ) < 1 := by
  refine ⟨by decide, by decide, by norm_num⟩

/-- Claim C9 as amended: normalized lexical scores lie in [0, 1]; with
no lexical match the normalization denominator defaults to 1 (so no
division by zero), and the result list is empty rather than falling
back to semantic-only scoring. -/
theorem C9_amended_normalization_bounds (ext : Ext) (now : Int)
    (corpus : List NewsRow) (query : String) (top_k : Nat) (out : List Candidate)
    (kr : List KEntry)
    (hl : lexicalStage ext.morphLexeme corpus (hybridQueryNer ext query)
      (hybridQueryKeywords query) = Except.ok kr)
    (h : hybrid_search_internal ext now corpus query top_k = Except.ok out) :
    (∀ c ∈ out, 0 ≤ c.keyword_score ∧ c.keyword_score ≤ 1)
    ∧ (kr = [] → out = [])
    ∧ maxKeywordScore [] = 1 := by
  rcases hybrid_ok_elim h with ⟨kr2, vr2, hl2, hv2, hout⟩
  rw [hl] at hl2
  injection hl2 with hkr
  subst hkr
  have hp : ∀ e ∈ boostedResults ext corpus query kr, 0 < e.keyword_score :=
    boostedResults_pos (lexicalStage_pos hl)
  refine ⟨?_, ?_, rfl⟩
  · intro c hc
    rw [hout] at hc
    have hc2 : c ∈ fusedResults ext now vr2 (boostedResults ext corpus query kr) :=
      (mem_sortDescBy _ _ c).mp (List.mem_of_mem_take hc)
    have hprops := fusedResults_props hc2 hp
    exact ⟨le_of_lt hprops.1, hprops.2.1⟩
  · intro hkrnil
    subst hkrnil
    have hb : boostedResults ext corpus query [] = [] := by
      unfold boostedResults multiMatchBoost nerDbBoost
      simp
    rw [hout, hb]
    simp [fusedResults, sortDescBy]

/-- Witness for the amended C9: the top candidate of a concrete search
has its normalized lexical score inside [0, 1]. -/
theorem C9_amended_witness : 0 ≤ cNeg0.keyword_score ∧ cNeg0.keyword_score ≤ 1 := by
  have h := C9_amended_normalization_bounds extTest 0 corpusNeg "alpha beta" 10 outNeg
    krNeg (by decide) (by decide)
  exact h.1 cNeg0 (by decide)

/-- Claim C3 counterexample: with no model artifact loaded, the exposed
search on a one-document corpus returns the document ranked by cosine
similarity, while the section 4.5 hybrid fusion output on the same
query and corpus is empty: the two orders differ. -/
theorem C3_counterexample_base_state_is_not_fusion :
    serviceSearch none extTest 0 corpusOneDoc "alpha" 10 =
      Except.ok [({ id := 1, title := "bravo news", description := "", link := "",
                    source := "", published := "", similarity := 1 }, none)]
    ∧ hybrid_search_internal extTest 0 corpusOneDoc "alpha" 10 = Except.ok [] := by
  refine ⟨by decide, by decide⟩

/-- Claim C3 as amended: with no model artifact loaded, the exposed
search returns exactly the semantic cosine ranking of section 4.2 (all
documents scored by cosine similarity, sorted descending, truncated to
`top_k`), not the section 4.5 fusion. -/
theorem C3_amended_base_state_is_semantic_ranking (ext : Ext) (now : Int)
    (corpus : List NewsRow) (query : String) (top_k : Nat) (qe : List ℚ)
    (hq : ext.embed query = some qe)
    (hok : ∀ row ∈ corpus, goodEmb qe row = true) :
    serviceSearch none ext now corpus query top_k
      = Except.ok ((specSemanticRanking ext corpus query top_k).map (fun n => (n, none))) := by
  have hbase : NewsRAGSystem.search_similar ext corpus query top_k
      = Except.ok (specSemanticRanking ext corpus query top_k) := by
    unfold NewsRAGSystem.search_similar specSemanticRanking
    rw [hq]
    dsimp only
    have hm := @mapE_ok_map NewsRow NewsDict (NewsRAGSystem.scoreRow ext qe)
      (fun row =>
        ({ id := row.id, title := row.title, description := row.description,
           link := row.link, source := row.source, published := row.published,
           similarity := (List.zipWith (fun a b => a * b) qe (row.embedding.getD [])).sum /
             (normQ ext.sqrtQ qe * normQ ext.sqrtQ (row.embedding.getD [])) } : NewsDict))
      corpus ?_
    · rw [hm]
    · intro row hr
      have hg := hok row hr
      unfold goodEmb at hg
      cases hemb : row.embedding with
      | none => rw [hemb] at hg; cases hg
      | some emb =>
          rw [hemb] at hg
          have hlen : emb.length = qe.length := by simpa using hg
          unfold NewsRAGSystem.scoreRow
          rw [hemb]
          show (do
            let sim ← cosineSim ext.sqrtQ qe emb
            pure ({ id := row.id, title := row.title, description := row.description,
                    link := row.link, source := row.source, published := row.published,
                    similarity := sim } : NewsDict)) = _
          unfold cosineSim npDot
          rw [if_pos hlen.symm]
          simp only [hemb, Option.getD_some]
          rfl
  unfold serviceSearch
  rw [hbase]

/-- Witness for the amended C3 on a concrete one-document corpus. -/
theorem C3_amended_witness :
    serviceSearch none extTest 0 corpusOneDoc "alpha" 10
      = Except.ok ((specSemanticRanking extTest corpusOneDoc "alpha" 10).map
          (fun n => (n, none))) :=
  C3_amended_base_state_is_semantic_ranking extTest 0 corpusOneDoc "alpha" 10 [1, 0]
    rfl (by decide)

/-- Claim C4 counterexample: on a corpus with no lexical match, the
loaded-model reranker returns the semantically ranked document, while
the claim's pipeline (widening via the section 4.5 fusion) returns
nothing: the candidate pools differ. -/
theorem C4_counterexample_not_fusion_widening :
    ltrIds (LTRNewsRAGSystem.search_similar artTest extTest 0 corpusOneDoc "alpha" 10) = [1]
    ∧ claimLtrIds (claimLtrOverFusion artTest extTest 0 corpusOneDoc "alpha" 10) = [] := by
  refine ⟨by decide, by decide⟩

/-- Claim C4 as amended: the loaded-model reranker equals the spec-side
pipeline that widens candidates to `min(100, top_k * 10)` via the base
SEMANTIC ranking, scores each candidate's feature vector in the
artifact's stored column order, sorts by model score descending and
truncates to `top_k`. -/
theorem C4_amended_reranker_equals_spec (art : ModelArtifact) (ext : Ext) (now : Int)
    (corpus : List NewsRow) (query : String) (top_k : Nat) :
    LTRNewsRAGSystem.search_similar art ext now corpus query top_k
      = specLtrSemanticRerank art ext now corpus query top_k := by
  unfold LTRNewsRAGSystem.search_similar specLtrSemanticRerank
  cases hb : NewsRAGSystem.search_similar ext corpus query (min 100 (top_k * 10)) with
  | error e => rfl
  | ok candidates =>
      cases candidates with
      | nil => simp [mapE, sortDescBy, List.take_nil]
      | cons x xs => rfl

end BankNews
